import Mathlib

/-!
Verification development for the React Native Web Crypto polyfill
(`src/polyfills.ts` of ably/ably-encrypted-channels-react-native-polyfills).

The TypeScript source is embedded shallowly:

* `BufferSource` models the union `ArrayBuffer | ArrayBufferView`: a flat
  byte buffer, or a typed view carrying its backing store together with the
  view's byte offset and length.
* Bytes are `Nat` values; every byte produced by a `Uint8Array` is `< 256`,
  which the theorems carry as a hypothesis where it matters.
* The host platform functions `btoa` / `atob` are modelled as standard
  base64 encode / forgiving-base64 decode on byte (code-unit) lists; `atob`
  is modelled on well-formed base64 input, which is the only way the
  polyfill ever reaches it.
* Each polyfilled operation (`importKey`, `encrypt`, `decrypt`, the custom
  adapters and `install`) becomes a total Lean function.  A `throw` in the
  source becomes an `Except.error` carrying the error kind (the payload of
  the kind records the datum the thrown message interpolates); reaching the
  asynchronous native backend becomes an `Except.ok` holding the exact
  argument tuple `(dataBase64, keyHex, ivHex, aesMode)` that the source
  passes to `NativeModules.Aes.encrypt` / `.decrypt`.
-/

namespace Polyfills

/-- `BufferSource = ArrayBuffer | ArrayBufferView`.  A view remembers its
whole backing store plus its logical window (byteOffset, length). -/
inductive BufferSource where
  | arrayBuffer (bytes : List Nat)
  | view (backing : List Nat) (byteOffset : Nat) (length : Nat)
deriving DecidableEq, Repr

/-- The bytes the source code actually reads from a `BufferSource`:
`buffer instanceof ArrayBuffer ? new Uint8Array(buffer) : new Uint8Array(buffer.buffer)`.
For a view this is the ENTIRE backing store (`buffer.buffer`), the view's
offset and length being dropped by the source. -/
def jsBytesOf : BufferSource → List Nat
  | .arrayBuffer bytes => bytes
  | .view backing _ _ => backing

/-- The logical sub-range a typed view addresses (what `new Uint8Array(view.buffer,
view.byteOffset, view.length)` would read).  Used to state what the spec
expects, for comparison with `jsBytesOf`. -/
def logicalBytes : BufferSource → List Nat
  | .arrayBuffer bytes => bytes
  | .view backing off len => (backing.drop off).take len

/-- One lowercase hex digit, as produced by `Number.prototype.toString(16)`. -/
def hexDigit (n : Nat) : Char :=
  if n < 10 then Char.ofNat (48 + n) else Char.ofNat (87 + n)

/-- `byte.toString(16).padStart(2, '0')` for a `Uint8Array` element (< 256):
exactly two lowercase hex digits. -/
def byteHex (b : Nat) : List Char :=
  [hexDigit (b / 16 % 16), hexDigit (b % 16)]

/-- Hex rendering of a byte list (the `.map(...).join('')` of the source). -/
def hexOfBytes (bs : List Nat) : String :=
  ⟨(bs.map byteHex).flatten⟩

/-- `bufferToHex` of the source: normalise per `jsBytesOf`, then render. -/
def bufferToHex (buffer : BufferSource) : String :=
  hexOfBytes (jsBytesOf buffer)

/-- The standard base64 alphabet, in value order. -/
def b64chars : List Char :=
  "ABCDEFGHIJKLMNOPQRSTUVWXYZabcdefghijklmnopqrstuvwxyz0123456789+/".toList

/-- Character for a sextet value (< 64). -/
def sextetChar (n : Nat) : Char := b64chars.getD n 'A'

/-- Sextet value of an alphabet character (junk 64 off the alphabet; the
polyfill only decodes well-formed base64). -/
def charSextet (c : Char) : Nat := b64chars.indexOf c

/-- `btoa` body: 3 bytes become 4 alphabet chars; a 2-byte tail becomes 3
chars and `=`; a 1-byte tail becomes 2 chars and `==`. -/
def btoaAux : List Nat → List Char
  | b0 :: b1 :: b2 :: rest =>
      sextetChar (b0 / 4) :: sextetChar (b0 % 4 * 16 + b1 / 16) ::
      sextetChar (b1 % 16 * 4 + b2 / 64) :: sextetChar (b2 % 64) :: btoaAux rest
  | [b0, b1] =>
      [sextetChar (b0 / 4), sextetChar (b0 % 4 * 16 + b1 / 16),
       sextetChar (b1 % 16 * 4), '=']
  | [b0] =>
      [sextetChar (b0 / 4), sextetChar (b0 % 4 * 16), '=', '=']
  | [] => []

/-- Platform `btoa` on a binary string whose code units are the given bytes. -/
def btoa (bs : List Nat) : String := ⟨btoaAux bs⟩

/-- `atob` body (forgiving-base64 on well-formed input): each 4-char group
yields 3 bytes, with `=` padding cutting the final group to 1 or 2 bytes. -/
def atobAux : List Char → List Nat
  | c0 :: c1 :: c2 :: c3 :: rest =>
      if c2 = '=' then
        [charSextet c0 * 4 + charSextet c1 / 16]
      else if c3 = '=' then
        [charSextet c0 * 4 + charSextet c1 / 16,
         charSextet c1 % 16 * 16 + charSextet c2 / 4]
      else
        (charSextet c0 * 4 + charSextet c1 / 16) ::
        (charSextet c1 % 16 * 16 + charSextet c2 / 4) ::
        (charSextet c2 % 4 * 64 + charSextet c3) :: atobAux rest
  | [c0, c1, c2] =>
      [charSextet c0 * 4 + charSextet c1 / 16,
       charSextet c1 % 16 * 16 + charSextet c2 / 4]
  | [c0, c1] =>
      [charSextet c0 * 4 + charSextet c1 / 16]
  | _ => []

/-- Platform `atob`, returning the decoded code units as bytes. -/
def atob (s : String) : List Nat := atobAux s.toList

/-- `bufferToBase64` of the source: normalise per `jsBytesOf`, build the
binary string by `String.fromCharCode`, and `btoa` it. -/
def bufferToBase64 (buffer : BufferSource) : String :=
  btoa (jsBytesOf buffer)

/-- `base64ToBuffer` of the source: `atob`, then write each `charCodeAt`
into a fresh `Uint8Array` and return its buffer. -/
def base64ToBuffer (base64 : String) : BufferSource :=
  .arrayBuffer (atob base64)

/-! ## The polyfilled operations -/

/-- Error kinds of the polyfill, one per `throw new Error(...)` site of the
operations.  Each payload records the datum the thrown message interpolates
(e.g. `unsupportedFormat` carries the offending format string that appears in
the message text). -/
inductive PolyError where
  | unsupportedFormat (format : String)
  | unsupportedAlgorithm (algorithmName : String)
  | invalidAlgorithmShape
  | invalidKey
  | missingIV
deriving DecidableEq, Repr

/-- The `algorithm` argument: a bare string, or a descriptor object with a
`name` and a possibly-absent `iv` field (`none` models an absent / undefined
field, which is the only falsy value a `BufferSource`-typed field takes). -/
inductive AlgorithmArg where
  | str (s : String)
  | descriptor (algName : String) (iv : Option BufferSource)
deriving DecidableEq, Repr

/-- `class PolyfillCryptoKey`: the nominal wrapper holding `keyData`
(an `ArrayBuffer`, i.e. a flat byte list). -/
structure PolyfillCryptoKey where
  keyData : List Nat
deriving DecidableEq, Repr

/-- The `key` argument of `encrypt`/`decrypt`: either a genuine
`PolyfillCryptoKey` instance, or some other value — e.g. a plain object that
structurally mimics a handle by carrying a `keyData` field, or a bare
buffer.  Only the `handle` constructor passes `instanceof PolyfillCryptoKey`. -/
inductive KeyArg where
  | handle (k : PolyfillCryptoKey)
  | plainObject (keyData : List Nat)
  | buffer (b : BufferSource)
deriving DecidableEq, Repr

/-- The `instanceof PolyfillCryptoKey` test. -/
def isPolyfillCryptoKey : KeyArg → Bool
  | .handle _ => true
  | _ => false

/-- Contiguous-substring search over character lists: does `pat` occur as a
run of consecutive characters somewhere in the list? -/
def substrAux (pat : List Char) : List Char → Bool
  | [] => pat.isEmpty
  | c :: rest => pat.isPrefixOf (c :: rest) || substrAux pat rest

/-- `true` iff JS `s.includes(pat)` holds: `pat` occurs contiguously in `s`. -/
def containsSubstr (s pat : String) : Bool :=
  substrAux pat.toList s.toList

/-- JS `String.prototype.toLowerCase` on the ASCII names the polyfill
compares: fold each character to lower case. -/
def toLowerStr (s : String) : String :=
  ⟨s.toList.map Char.toLower⟩

/-- The lowercased algorithm name `importKey` extracts
(`typeof algorithm === 'string' ? algorithm.toLowerCase() : algorithm.name.toLowerCase()`). -/
def algorithmNameOf : AlgorithmArg → String
  | .str s => toLowerStr s
  | .descriptor n _ => toLowerStr n

/-- `importKey(format, keyData, algorithm)`: format must be `'raw'`, the
lowercased algorithm name must contain `'aes'`; the returned handle wraps
`keyData instanceof ArrayBuffer ? keyData : keyData.buffer` — for a typed
view, the WHOLE backing buffer (`jsBytesOf`). -/
def importKey (format : String) (keyData : BufferSource) (algorithm : AlgorithmArg) :
    Except PolyError PolyfillCryptoKey :=
  if format ≠ "raw" then
    .error (.unsupportedFormat format)
  else
    let algorithmName := algorithmNameOf algorithm
    if containsSubstr algorithmName "aes" = false then
      .error (.unsupportedAlgorithm algorithmName)
    else
      .ok ⟨jsBytesOf keyData⟩

/-- The argument tuple the native strategy hands to
`NativeModules.Aes.encrypt` / `NativeModules.Aes.decrypt`.  An `Except.ok`
carrying this record models "the backend is invoked with exactly these
strings"; any `Except.error` models a rejection raised before the backend is
ever reached. -/
structure BackendCall where
  dataBase64 : String
  keyHex : String
  ivHex : String
  aesMode : String
deriving DecidableEq, Repr

/-- The mode token `` `aes-${keyLength}-cbc` `` with
`keyLength = new Uint8Array(key.keyData).length * 8`. -/
def aesModeOf (k : PolyfillCryptoKey) : String :=
  "aes-" ++ toString (k.keyData.length * 8) ++ "-cbc"

/-- Native-strategy `encrypt` up to the backend invocation: the validation
chain in source order (bare string → `invalidAlgorithmShape`; name without
`aes-cbc` → `unsupportedAlgorithm`; non-instance key → `invalidKey`; falsy
`algorithm.iv` → `missingIV`), then the marshalled backend arguments. -/
def encrypt (algorithm : AlgorithmArg) (key : KeyArg) (data : BufferSource) :
    Except PolyError BackendCall :=
  match algorithm with
  | .str _ => .error .invalidAlgorithmShape
  | .descriptor algName iv =>
    let algorithmName := toLowerStr algName
    if containsSubstr algorithmName "aes-cbc" = false then
      .error (.unsupportedAlgorithm algorithmName)
    else
      match key with
      | .handle k =>
        match iv with
        | none => .error .missingIV
        | some ivBuf =>
          .ok ⟨bufferToBase64 data, hexOfBytes k.keyData, bufferToHex ivBuf, aesModeOf k⟩
      | _ => .error .invalidKey

/-- Native-strategy `decrypt` up to the backend invocation; the source's
validation and marshalling are line-for-line the same as `encrypt`'s, with
`NativeModules.Aes.decrypt` at the end. -/
def decrypt (algorithm : AlgorithmArg) (key : KeyArg) (data : BufferSource) :
    Except PolyError BackendCall :=
  match algorithm with
  | .str _ => .error .invalidAlgorithmShape
  | .descriptor algName iv =>
    let algorithmName := toLowerStr algName
    if containsSubstr algorithmName "aes-cbc" = false then
      .error (.unsupportedAlgorithm algorithmName)
    else
      match key with
      | .handle k =>
        match iv with
        | none => .error .missingIV
        | some ivBuf =>
          .ok ⟨bufferToBase64 data, hexOfBytes k.keyData, bufferToHex ivBuf, aesModeOf k⟩
      | _ => .error .invalidKey

/-- The arguments a custom adapter forwards to the caller-supplied function:
the algorithm descriptor, the key's RAW bytes (`key.keyData`, not a hex
string), and the data buffer.  An `Except.ok` carrying this record models
"the supplied custom function is invoked with exactly these values". -/
structure CustomDelegation where
  algorithm : AlgorithmArg
  rawKeyBytes : List Nat
  data : BufferSource
deriving DecidableEq, Repr

/-- The inner function that `buildCustomEncryption(encryptionFunction)` /
`buildCustomDecryption(decryptionFunction)` resolve to: check
`key instanceof PolyfillCryptoKey`, then delegate
`suppliedFunction(algorithm, key.keyData, data)`.  Note the builders are
`async`, so what `install` assigns to the global slot is the PROMISE of this
function, not the function itself (see `JSVal.promiseCustomEncrypt`). -/
def customAdapter (algorithm : AlgorithmArg) (key : KeyArg) (data : BufferSource) :
    Except PolyError CustomDelegation :=
  match key with
  | .handle k => .ok ⟨algorithm, k.keyData, data⟩
  | _ => .error .invalidKey

/-! ## `install` and the global namespace -/

/-- The distinguishable values `install` can place into a global slot. -/
inductive JSVal where
  /-- The polyfilled `importKey` function. -/
  | funcImportKey
  /-- The native-strategy `encrypt` function. -/
  | funcNativeEncrypt
  /-- The native-strategy `decrypt` function. -/
  | funcNativeDecrypt
  /-- `buildCustomEncryption(options.encryptionFunction)`: since the builder
  is an `async function`, this value is a `Promise` resolving to the adapter
  (`customAdapter`), not a callable function. -/
  | promiseCustomEncrypt
  /-- `buildCustomDecryption(options.decryptionFunction)`: likewise a
  `Promise`, not a callable function. -/
  | promiseCustomDecrypt
  /-- The `TextDecoder` imported from `@bacons/text-decoder`. -/
  | polyfillTextDecoder
  /-- A text decoder the host runtime already provided. -/
  | hostTextDecoder
deriving DecidableEq, Repr

/-- Whether a slot value is callable as a function.  A `Promise` object is
not callable: applying it raises a `TypeError` in JS. -/
def isCallable : JSVal → Bool
  | .funcImportKey => true
  | .funcNativeEncrypt => true
  | .funcNativeDecrypt => true
  | _ => false

/-- The `crypto.subtle` namespace: three operation slots. -/
structure SubtleNS where
  importKeySlot : Option JSVal
  encryptSlot : Option JSVal
  decryptSlot : Option JSVal
deriving DecidableEq, Repr

/-- The `crypto` container (`subtle` possibly absent). -/
structure CryptoNS where
  subtle : Option SubtleNS
deriving DecidableEq, Repr

/-- The mutable global namespace `install` operates on: the `crypto`
container (possibly absent) and the `TextDecoder` global (possibly absent). -/
structure GlobalState where
  crypto : Option CryptoNS
  textDecoder : Option JSVal
deriving DecidableEq, Repr

/-- `InstallOptions`: which of the two custom functions the options object
supplies. -/
structure InstallOptions where
  encryptionFunction : Bool
  decryptionFunction : Bool
deriving DecidableEq, Repr

/-- Install-time failures: `throw` sites of `install`. -/
inductive InstallError where
  /-- Exactly one of the custom function pair was supplied. -/
  | configurationError
  /-- Neither custom function supplied and `NativeModules.Aes` is absent. -/
  | missingDependency
deriving DecidableEq, Repr

/-- Update the three slots through the (by then present) containers. -/
def updateSubtle (g : GlobalState) (f : SubtleNS → SubtleNS) : GlobalState :=
  { g with crypto := g.crypto.map fun c => { c with subtle := c.subtle.map f } }

/-- The unconditional opening statements of `install`, in source order:

1. ensure `global.crypto` exists (`{}` if absent);
2. ensure `global.crypto.subtle` exists (`{}` if absent);
3. `global.TextDecoder = global.TextDecoder || TextDecoder`;
4. `crypto.subtle.importKey = importKey` (unconditionally). -/
def ensureNamespaces (g : GlobalState) : GlobalState :=
  let g1 : GlobalState :=
    { g with crypto := some (g.crypto.getD ⟨none⟩) }
  let g2 : GlobalState :=
    { g1 with crypto := g1.crypto.map fun c => ⟨some (c.subtle.getD ⟨none, none, none⟩)⟩ }
  let g3 : GlobalState :=
    { g2 with textDecoder := some (g2.textDecoder.getD .polyfillTextDecoder) }
  updateSubtle g3 fun s => { s with importKeySlot := some .funcImportKey }

/-- `install(options)`, as a state transformer over the global namespace.
JS mutations performed before a `throw` persist, so the function returns the
mutated-so-far state together with the thrown error (if any).  After the
unconditional `ensureNamespaces` statements comes the strategy selection:
both custom functions → assign the two builder results (promises); exactly
one → throw `configurationError`; neither and `NativeModules.Aes` present →
assign the native functions; otherwise → throw `missingDependency`. -/
def install (options : InstallOptions) (nativeAesPresent : Bool) (g : GlobalState) :
    Option InstallError × GlobalState :=
  let g4 : GlobalState := ensureNamespaces g
  if options.encryptionFunction && options.decryptionFunction then
    (none, updateSubtle g4 fun s =>
      { s with encryptSlot := some .promiseCustomEncrypt,
               decryptSlot := some .promiseCustomDecrypt })
  else if options.encryptionFunction || options.decryptionFunction then
    (some .configurationError, g4)
  else if nativeAesPresent then
    (none, updateSubtle g4 fun s =>
      { s with encryptSlot := some .funcNativeEncrypt,
               decryptSlot := some .funcNativeDecrypt })
  else
    (some .missingDependency, g4)

/-- The value reachable as `global.crypto.subtle.encrypt`, if any. -/
def encryptSlotOf (g : GlobalState) : Option JSVal :=
  (g.crypto.bind fun c => c.subtle).bind fun s => s.encryptSlot

/-- The value reachable as `global.crypto.subtle.decrypt`, if any. -/
def decryptSlotOf (g : GlobalState) : Option JSVal :=
  (g.crypto.bind fun c => c.subtle).bind fun s => s.decryptSlot

/-- The value reachable as `global.crypto.subtle.importKey`, if any. -/
def importKeySlotOf (g : GlobalState) : Option JSVal :=
  (g.crypto.bind fun c => c.subtle).bind fun s => s.importKeySlot

/-- A global namespace with nothing installed yet. -/
def emptyGlobal : GlobalState := ⟨none, none⟩

/-! ## Helper lemmas -/

theorem charSextet_sextetChar : ∀ n, n < 64 → charSextet (sextetChar n) = n := by
  decide

theorem sextetChar_ne_eq : ∀ n, n < 64 → sextetChar n ≠ '=' := by
  decide

theorem atobAux_btoaAux (bs : List Nat) (h : ∀ x ∈ bs, x < 256) :
    atobAux (btoaAux bs) = bs := by
  induction bs using btoaAux.induct with
  | case1 b0 b1 b2 rest ih =>
    have hb0 : b0 < 256 := h b0 (by simp)
    have hb1 : b1 < 256 := h b1 (by simp)
    have hb2 : b2 < 256 := h b2 (by simp)
    have s0 : b0 / 4 < 64 := by omega
    have s1 : b0 % 4 * 16 + b1 / 16 < 64 := by omega
    have s2 : b1 % 16 * 4 + b2 / 64 < 64 := by omega
    have s3 : b2 % 64 < 64 := by omega
    simp only [btoaAux, atobAux]
    rw [if_neg (sextetChar_ne_eq _ s2), if_neg (sextetChar_ne_eq _ s3)]
    rw [charSextet_sextetChar _ s0, charSextet_sextetChar _ s1,
        charSextet_sextetChar _ s2, charSextet_sextetChar _ s3]
    rw [ih (fun x hx => h x (by simp [hx]))]
    simp only [List.cons.injEq]
    refine ⟨by omega, by omega, by omega, trivial⟩
  | case2 b0 b1 =>
    have hb0 : b0 < 256 := h b0 (by simp)
    have hb1 : b1 < 256 := h b1 (by simp)
    have s2 : b1 % 16 * 4 < 64 := by omega
    simp only [btoaAux, atobAux, if_true]
    rw [if_neg (sextetChar_ne_eq _ s2)]
    rw [charSextet_sextetChar _ (by omega : b0 / 4 < 64),
        charSextet_sextetChar _ (by omega : b0 % 4 * 16 + b1 / 16 < 64),
        charSextet_sextetChar _ s2]
    simp only [List.cons.injEq]
    refine ⟨by omega, by omega, trivial⟩
  | case3 b0 =>
    have hb0 : b0 < 256 := h b0 (by simp)
    simp only [btoaAux, atobAux, if_true]
    rw [charSextet_sextetChar _ (by omega : b0 / 4 < 64),
        charSextet_sextetChar _ (by omega : b0 % 4 * 16 < 64)]
    simp only [List.cons.injEq]
    refine ⟨by omega, trivial⟩
  | case4 =>
    rfl

theorem atob_btoa (bs : List Nat) (h : ∀ x ∈ bs, x < 256) :
    atob (btoa bs) = bs :=
  atobAux_btoaAux bs h

theorem encryptSlotOf_ensureNamespaces (g : GlobalState) :
    encryptSlotOf (ensureNamespaces g) = encryptSlotOf g := by
  obtain ⟨c, td⟩ := g
  cases c with
  | none => rfl
  | some cn =>
    obtain ⟨s⟩ := cn
    cases s with
    | none => rfl
    | some sn => rfl

theorem decryptSlotOf_ensureNamespaces (g : GlobalState) :
    decryptSlotOf (ensureNamespaces g) = decryptSlotOf g := by
  obtain ⟨c, td⟩ := g
  cases c with
  | none => rfl
  | some cn =>
    obtain ⟨s⟩ := cn
    cases s with
    | none => rfl
    | some sn => rfl

theorem importKeySlotOf_ensureNamespaces (g : GlobalState) :
    importKeySlotOf (ensureNamespaces g) = some .funcImportKey := by
  obtain ⟨c, td⟩ := g
  cases c with
  | none => rfl
  | some cn =>
    obtain ⟨s⟩ := cn
    cases s with
    | none => rfl
    | some sn => rfl

theorem crypto_isSome_ensureNamespaces (g : GlobalState) :
    (ensureNamespaces g).crypto.isSome = true := by
  obtain ⟨c, td⟩ := g
  cases c <;> rfl

theorem subtle_isSome_ensureNamespaces (g : GlobalState) :
    ((ensureNamespaces g).crypto.bind fun c => c.subtle).isSome = true := by
  obtain ⟨c, td⟩ := g
  cases c with
  | none => rfl
  | some cn =>
    obtain ⟨s⟩ := cn
    cases s <;> rfl

theorem textDecoder_ensureNamespaces (g : GlobalState) (h : g.textDecoder = none) :
    (ensureNamespaces g).textDecoder = some .polyfillTextDecoder := by
  obtain ⟨c, td⟩ := g
  cases td with
  | none => rfl
  | some v => exact absurd h (by simp)

theorem importKey_raw_ok (keyData : BufferSource) (algorithm : AlgorithmArg)
    (ha : containsSubstr (algorithmNameOf algorithm) "aes" = true) :
    importKey "raw" keyData algorithm = .ok ⟨jsBytesOf keyData⟩ := by
  unfold importKey
  simp [ha]

/-! ## Claim theorems -/

/-- C1: the claim says `install` with both custom functions publishes
`crypto.subtle.encrypt`/`decrypt` as CALLABLE functions delegating to the
supplied pair.  The code instead assigns the value returned by the `async`
builders `buildCustomEncryption`/`buildCustomDecryption` — a `Promise`
resolving to the adapter, which is not callable (calling it raises a
`TypeError`).  This theorem evaluates `install` at the failing input and
records that the published slots hold the promises, that a promise is not
callable, and that the adapter the promise resolves to would indeed have
delegated the key's raw bytes (not hex) with no native-backend marshalling. -/
theorem C1_custom_install_publishes_promise_not_function :
    (install ⟨true, true⟩ true emptyGlobal).1 = none ∧
    encryptSlotOf (install ⟨true, true⟩ true emptyGlobal).2 = some .promiseCustomEncrypt ∧
    decryptSlotOf (install ⟨true, true⟩ true emptyGlobal).2 = some .promiseCustomDecrypt ∧
    isCallable .promiseCustomEncrypt = false ∧
    isCallable .promiseCustomDecrypt = false ∧
    (∀ algorithm k data,
      customAdapter algorithm (.handle k) data = .ok ⟨algorithm, k.keyData, data⟩) :=
  ⟨rfl, rfl, rfl, rfl, rfl, fun _ _ _ => rfl⟩

/-- C2 counterexample: with a present but ZERO-LENGTH `iv`, `encrypt` and
`decrypt` do not reject with `missingIV`: an empty typed array is truthy, so
`!algorithm.iv` passes and the backend is invoked with the empty hex IV. -/
theorem C2_counterexample_empty_iv_reaches_backend :
    encrypt (.descriptor "AES-CBC" (some (.arrayBuffer [])))
        (.handle ⟨List.replicate 16 0⟩) (.arrayBuffer [1, 2]) =
      .ok ⟨"AQI=", "00000000000000000000000000000000", "", "aes-128-cbc"⟩ ∧
    decrypt (.descriptor "AES-CBC" (some (.arrayBuffer [])))
        (.handle ⟨List.replicate 16 0⟩) (.arrayBuffer [1, 2]) =
      .ok ⟨"AQI=", "00000000000000000000000000000000", "", "aes-128-cbc"⟩ ∧
    encrypt (.descriptor "AES-CBC" (some (.arrayBuffer [])))
        (.handle ⟨List.replicate 16 0⟩) (.arrayBuffer [1, 2]) ≠ .error .missingIV := by
  have h1 : encrypt (.descriptor "AES-CBC" (some (.arrayBuffer [])))
      (.handle ⟨List.replicate 16 0⟩) (.arrayBuffer [1, 2]) =
      .ok ⟨"AQI=", "00000000000000000000000000000000", "", "aes-128-cbc"⟩ := by
    rfl
  have h2 : decrypt (.descriptor "AES-CBC" (some (.arrayBuffer [])))
      (.handle ⟨List.replicate 16 0⟩) (.arrayBuffer [1, 2]) =
      .ok ⟨"AQI=", "00000000000000000000000000000000", "", "aes-128-cbc"⟩ := by
    rfl
  refine ⟨h1, h2, ?_⟩
  rw [h1]
  simp

/-- C2 (amended): `encrypt`/`decrypt` reject with `missingIV` exactly when
the `iv` field is absent; a present `iv` — zero-length included — passes the
check and the backend is invoked (with the hex rendering of that IV, `""`
for an empty one). -/
theorem C2_missingIV_iff_iv_absent (algName : String) (k : PolyfillCryptoKey)
    (data ivBuf : BufferSource)
    (hname : containsSubstr (toLowerStr algName) "aes-cbc" = true) :
    encrypt (.descriptor algName none) (.handle k) data = .error .missingIV ∧
    decrypt (.descriptor algName none) (.handle k) data = .error .missingIV ∧
    encrypt (.descriptor algName (some ivBuf)) (.handle k) data =
      .ok ⟨bufferToBase64 data, hexOfBytes k.keyData, bufferToHex ivBuf, aesModeOf k⟩ ∧
    decrypt (.descriptor algName (some ivBuf)) (.handle k) data =
      .ok ⟨bufferToBase64 data, hexOfBytes k.keyData, bufferToHex ivBuf, aesModeOf k⟩ := by
  unfold encrypt decrypt
  simp [hname]

/-- C2 witness: the amended statement at a concrete valid call. -/
theorem C2_missingIV_iff_iv_absent_witness :
    encrypt (.descriptor "AES-CBC" none) (.handle ⟨List.replicate 16 0⟩)
        (.arrayBuffer [1]) = .error .missingIV ∧
    decrypt (.descriptor "AES-CBC" none) (.handle ⟨List.replicate 16 0⟩)
        (.arrayBuffer [1]) = .error .missingIV := by
  have h := C2_missingIV_iff_iv_absent "AES-CBC" ⟨List.replicate 16 0⟩
      (.arrayBuffer [1]) (.arrayBuffer []) (by decide)
  exact ⟨h.1, h.2.1⟩

/-- C3: the claim (and the spec's requirement) is that for a typed view over
a larger buffer only the view's logical sub-range is read.  The code instead
normalises a view with `new Uint8Array(view.buffer)` / `view.buffer`,
reading the ENTIRE backing store.  Failing input: a one-byte view at offset
1 of the backing buffer `[0xaa, 0xbb, 0xcc]`.  Its logical sub-range is
`[0xbb]` (hex `"bb"`), yet `bufferToHex` renders `"aabbcc"`, `bufferToBase64`
encodes all three backing bytes, and `importKey` wraps the whole backing
buffer into the key handle. -/
theorem C3_view_conversions_read_whole_backing_buffer :
    bufferToHex (.view [170, 187, 204] 1 1) = "aabbcc" ∧
    logicalBytes (.view [170, 187, 204] 1 1) = [187] ∧
    hexOfBytes (logicalBytes (.view [170, 187, 204] 1 1)) = "bb" ∧
    bufferToBase64 (.view [170, 187, 204] 1 1) = btoa [170, 187, 204] ∧
    importKey "raw" (.view [170, 187, 204] 1 1) (.str "AES-CBC") = .ok ⟨[170, 187, 204]⟩ := by
  refine ⟨by decide, by decide, by decide, by decide, by rfl⟩

/-- C4: for a key imported from flat raw bytes `kb`, a valid native-strategy
`encrypt`/`decrypt` passes the backend the mode token
`"aes-" ++ toString (kb.length * 8) ++ "-cbc"`; in particular byte lengths
16, 24, 32 yield `aes-128-cbc`, `aes-192-cbc`, `aes-256-cbc`. -/
theorem C4_mode_token_from_key_byte_length (kb : List Nat) (algName : String)
    (ivBuf data : BufferSource)
    (hname : containsSubstr (toLowerStr algName) "aes-cbc" = true) :
    importKey "raw" (.arrayBuffer kb) (.str "AES-CBC") = .ok ⟨kb⟩ ∧
    encrypt (.descriptor algName (some ivBuf)) (.handle ⟨kb⟩) data =
      .ok ⟨bufferToBase64 data, hexOfBytes kb, bufferToHex ivBuf,
           "aes-" ++ toString (kb.length * 8) ++ "-cbc"⟩ ∧
    decrypt (.descriptor algName (some ivBuf)) (.handle ⟨kb⟩) data =
      .ok ⟨bufferToBase64 data, hexOfBytes kb, bufferToHex ivBuf,
           "aes-" ++ toString (kb.length * 8) ++ "-cbc"⟩ ∧
    (kb.length = 16 → "aes-" ++ toString (kb.length * 8) ++ "-cbc" = "aes-128-cbc") ∧
    (kb.length = 24 → "aes-" ++ toString (kb.length * 8) ++ "-cbc" = "aes-192-cbc") ∧
    (kb.length = 32 → "aes-" ++ toString (kb.length * 8) ++ "-cbc" = "aes-256-cbc") := by
  refine ⟨importKey_raw_ok _ _ (by decide), ?_, ?_, ?_, ?_, ?_⟩
  · unfold encrypt
    simp [hname, aesModeOf]
  · unfold decrypt
    simp [hname, aesModeOf]
  · intro h
    rw [h]
    decide
  · intro h
    rw [h]
    decide
  · intro h
    rw [h]
    decide

/-- C4 witness: a 16-byte key at a concrete valid call yields the backend
mode token `aes-128-cbc`. -/
theorem C4_mode_token_witness :
    encrypt (.descriptor "AES-CBC" (some (.arrayBuffer (List.replicate 16 1))))
        (.handle ⟨List.replicate 16 0⟩) (.arrayBuffer [5]) =
      .ok ⟨bufferToBase64 (.arrayBuffer [5]), hexOfBytes (List.replicate 16 0),
           bufferToHex (.arrayBuffer (List.replicate 16 1)), "aes-128-cbc"⟩ := by
  have h := C4_mode_token_from_key_byte_length (List.replicate 16 0) "AES-CBC"
      (.arrayBuffer (List.replicate 16 1)) (.arrayBuffer [5]) (by decide)
  have hm := h.2.2.2.1 (by simp)
  rw [h.2.1, hm]

/-- C5: `importKey` succeeds exactly when `format = "raw"` and the
lowercased algorithm name (from a bare string or the descriptor's `name`)
contains `"aes"`; a non-`raw` format fails with `unsupportedFormat` carrying
the offending format string (which the thrown message interpolates), and a
name without `"aes"` fails with `unsupportedAlgorithm`. -/
theorem C5_importKey_success_condition_and_errors (format : String)
    (keyData : BufferSource) (algorithm : AlgorithmArg) :
    ((importKey format keyData algorithm).isOk = true ↔
      (format = "raw" ∧ containsSubstr (algorithmNameOf algorithm) "aes" = true)) ∧
    (format ≠ "raw" →
      importKey format keyData algorithm = .error (.unsupportedFormat format)) ∧
    (format = "raw" → containsSubstr (algorithmNameOf algorithm) "aes" = false →
      importKey format keyData algorithm =
        .error (.unsupportedAlgorithm (algorithmNameOf algorithm))) := by
  unfold importKey
  by_cases hf : format = "raw"
  · subst hf
    by_cases ha : containsSubstr (algorithmNameOf algorithm) "aes" = true
    · simp [ha, Except.isOk, Except.toBool]
    · simp only [Bool.not_eq_true] at ha
      simp [ha, Except.isOk, Except.toBool]
  · simp [hf, Except.isOk, Except.toBool]

/-- C5 witness: the spec's two rejection probes — `pkcs8` format, and `RSA`
algorithm name — produce the two error kinds with their payloads. -/
theorem C5_importKey_witness :
    importKey "pkcs8" (.arrayBuffer [0]) (.str "AES-CBC") =
      .error (.unsupportedFormat "pkcs8") ∧
    importKey "raw" (.arrayBuffer [0]) (.str "RSA") =
      .error (.unsupportedAlgorithm "rsa") := by
  refine ⟨(C5_importKey_success_condition_and_errors "pkcs8" (.arrayBuffer [0])
      (.str "AES-CBC")).2.1 (by decide), ?_⟩
  exact (C5_importKey_success_condition_and_errors "raw" (.arrayBuffer [0])
      (.str "RSA")).2.2 rfl (by decide)

/-- C6: under either strategy, a key argument that is not an `importKey`
handle — even a plain object structurally carrying a `keyData` field — is
rejected with `invalidKey` and no backend (native or custom) is invoked: the
result is an error, so no `BackendCall` / `CustomDelegation` is produced. -/
theorem C6_non_handle_key_rejected (algName : String) (iv : Option BufferSource)
    (key : KeyArg) (data : BufferSource)
    (hkey : isPolyfillCryptoKey key = false)
    (hname : containsSubstr (toLowerStr algName) "aes-cbc" = true) :
    encrypt (.descriptor algName iv) key data = .error .invalidKey ∧
    decrypt (.descriptor algName iv) key data = .error .invalidKey ∧
    (∀ algorithm, customAdapter algorithm key data = .error .invalidKey) := by
  cases key with
  | handle k => simp [isPolyfillCryptoKey] at hkey
  | plainObject kd =>
    refine ⟨?_, ?_, fun _ => rfl⟩
    · unfold encrypt
      simp [hname]
    · unfold decrypt
      simp [hname]
  | buffer b =>
    refine ⟨?_, ?_, fun _ => rfl⟩
    · unfold encrypt
      simp [hname]
    · unfold decrypt
      simp [hname]

/-- C6 witness: the structural mimic — a plain object with a `keyData`
field — is rejected by the native operation and by the custom adapter. -/
theorem C6_non_handle_key_witness :
    encrypt (.descriptor "AES-CBC" (some (.arrayBuffer (List.replicate 16 0))))
        (.plainObject [1, 2, 3]) (.arrayBuffer [9]) = .error .invalidKey ∧
    customAdapter (.descriptor "AES-CBC" (some (.arrayBuffer (List.replicate 16 0))))
        (.plainObject [1, 2, 3]) (.arrayBuffer [9]) = .error .invalidKey := by
  have h := C6_non_handle_key_rejected "AES-CBC"
      (some (.arrayBuffer (List.replicate 16 0))) (.plainObject [1, 2, 3])
      (.arrayBuffer [9]) (by decide) (by decide)
  exact ⟨h.1, h.2.2 _⟩

/-- C7: supplying exactly one of the two custom functions makes `install`
throw the configuration error synchronously (`install` itself returns the
error, not a pending operation), and that call assigns neither the `encrypt`
nor the `decrypt` slot: both read back unchanged. -/
theorem C7_lone_custom_function_fails_install (options : InstallOptions)
    (native : Bool) (g : GlobalState)
    (hone : options.encryptionFunction ≠ options.decryptionFunction) :
    (install options native g).1 = some .configurationError ∧
    encryptSlotOf (install options native g).2 = encryptSlotOf g ∧
    decryptSlotOf (install options native g).2 = decryptSlotOf g := by
  obtain ⟨e, d⟩ := options
  cases e <;> cases d <;> simp at hone <;>
    exact ⟨rfl, encryptSlotOf_ensureNamespaces g, decryptSlotOf_ensureNamespaces g⟩

/-- C7 witness: `install({ encryptionFunction: f })` on an empty global. -/
theorem C7_lone_custom_function_witness :
    (install ⟨true, false⟩ true emptyGlobal).1 = some .configurationError ∧
    encryptSlotOf (install ⟨true, false⟩ true emptyGlobal).2 = encryptSlotOf emptyGlobal ∧
    decryptSlotOf (install ⟨true, false⟩ true emptyGlobal).2 = decryptSlotOf emptyGlobal :=
  C7_lone_custom_function_fails_install ⟨true, false⟩ true emptyGlobal (by decide)

/-- C8: base64 encoding then decoding is the identity on byte sequences:
`base64ToBuffer(bufferToBase64(b)) == b`. -/
theorem C8_base64_roundtrip (bs : List Nat) (h : ∀ x ∈ bs, x < 256) :
    base64ToBuffer (bufferToBase64 (.arrayBuffer bs)) = .arrayBuffer bs := by
  unfold base64ToBuffer bufferToBase64
  rw [show jsBytesOf (.arrayBuffer bs) = bs from rfl, atob_btoa bs h]

/-- C8 witness: the round trip at a concrete byte sequence. -/
theorem C8_base64_roundtrip_witness :
    base64ToBuffer (bufferToBase64 (.arrayBuffer [0, 1, 255])) = .arrayBuffer [0, 1, 255] :=
  C8_base64_roundtrip [0, 1, 255] (by decide)

/-- C9: whenever `install` throws (configuration error or missing
dependency), the same call has already mutated the global namespace: the
`crypto` and `crypto.subtle` containers exist, `importKey` is assigned, and
the `TextDecoder` global has been set if it was absent. -/
theorem C9_throwing_install_already_mutated_globals (options : InstallOptions)
    (native : Bool) (g : GlobalState) (e : InstallError)
    (herr : (install options native g).1 = some e) :
    ((install options native g).2.crypto).isSome = true ∧
    (((install options native g).2.crypto.bind fun c => c.subtle)).isSome = true ∧
    importKeySlotOf (install options native g).2 = some .funcImportKey ∧
    (g.textDecoder = none →
      (install options native g).2.textDecoder = some .polyfillTextDecoder) := by
  obtain ⟨eo, dopt⟩ := options
  cases eo <;> cases dopt <;> cases native <;>
    simp only [install, Bool.and_self, Bool.and_true, Bool.and_false, Bool.true_and,
      Bool.false_and, Bool.or_self, Bool.or_true, Bool.or_false, Bool.true_or,
      Bool.false_or, if_true, if_false, Bool.false_eq_true, reduceIte] at herr ⊢ <;>
    exact ⟨crypto_isSome_ensureNamespaces g, subtle_isSome_ensureNamespaces g,
      importKeySlotOf_ensureNamespaces g, textDecoder_ensureNamespaces g⟩

/-- C9 witness: the lone-custom-function failing call on an empty global has
created the containers, assigned `importKey`, and set `TextDecoder`. -/
theorem C9_throwing_install_witness :
    ((install ⟨true, false⟩ true emptyGlobal).2.crypto).isSome = true ∧
    (((install ⟨true, false⟩ true emptyGlobal).2.crypto.bind fun c => c.subtle)).isSome = true ∧
    importKeySlotOf (install ⟨true, false⟩ true emptyGlobal).2 = some .funcImportKey ∧
    (install ⟨true, false⟩ true emptyGlobal).2.textDecoder = some .polyfillTextDecoder := by
  have h := C9_throwing_install_already_mutated_globals ⟨true, false⟩ true emptyGlobal
      .configurationError (by decide)
  exact ⟨h.1, h.2.1, h.2.2.1, h.2.2.2 rfl⟩

/-- C10: `importKey` imposes no key-length restriction — any flat byte list
of any length `n` (0 and non-standard lengths included) yields a handle, and
a subsequent valid native-strategy call passes the backend the mode token
`"aes-" ++ toString (n * 8) ++ "-cbc"`. -/
theorem C10_importKey_unrestricted_key_length (kb : List Nat) (algName : String)
    (ivBuf data : BufferSource)
    (hname : containsSubstr (toLowerStr algName) "aes-cbc" = true) :
    importKey "raw" (.arrayBuffer kb) (.str "AES-CBC") = .ok ⟨kb⟩ ∧
    encrypt (.descriptor algName (some ivBuf)) (.handle ⟨kb⟩) data =
      .ok ⟨bufferToBase64 data, hexOfBytes kb, bufferToHex ivBuf,
           "aes-" ++ toString (kb.length * 8) ++ "-cbc"⟩ ∧
    decrypt (.descriptor algName (some ivBuf)) (.handle ⟨kb⟩) data =
      .ok ⟨bufferToBase64 data, hexOfBytes kb, bufferToHex ivBuf,
           "aes-" ++ toString (kb.length * 8) ++ "-cbc"⟩ := by
  refine ⟨importKey_raw_ok _ _ (by decide), ?_, ?_⟩
  · unfold encrypt
    simp [hname, aesModeOf]
  · unfold decrypt
    simp [hname, aesModeOf]

/-- C10 witness: a non-standard 5-byte key imports fine and the backend
receives the non-standard mode token `aes-40-cbc`. -/
theorem C10_importKey_unrestricted_witness :
    importKey "raw" (.arrayBuffer (List.replicate 5 7)) (.str "AES-CBC") =
      .ok ⟨List.replicate 5 7⟩ ∧
    encrypt (.descriptor "AES-CBC" (some (.arrayBuffer [0])))
        (.handle ⟨List.replicate 5 7⟩) (.arrayBuffer [1]) =
      .ok ⟨"AQ==", "0707070707", "00", "aes-40-cbc"⟩ := by
  have h := C10_importKey_unrestricted_key_length (List.replicate 5 7) "AES-CBC"
      (.arrayBuffer [0]) (.arrayBuffer [1]) (by decide)
  refine ⟨h.1, ?_⟩
  rw [h.2.1]
  rfl

end Polyfills
